import Mathlib

/-!
Verification of the capmf_scrape data-collection scripts.

Shallow embedding of the dataframe-manipulating parts of the four scripts
(MARPOL_Annex6_pdf.py, DRR_subindicators.py, ECT_scraping.py,
LVC_pdf_scraping.py).  Dataframes become lists of structures, pandas
operations become list functions, machine floats carrying possibly-missing
years become `Option Int`, and operations that can raise become `Except`.
-/

namespace Capmf

/-! ## Shared string utilities

Python/pandas strings are modelled through `List Char`; comparison is
code-point lexicographic, exactly pandas' string ordering. -/

/-- Code-point comparison of characters, as Python compares them. -/
def charLt (a b : Char) : Bool := a < b

/-- Lexicographic code-point order on character lists: Python's `s < t`. -/
def strLtCh : List Char → List Char → Bool
  | [], [] => false
  | [], _ :: _ => true
  | _ :: _, [] => false
  | a :: as, b :: bs => if a = b then strLtCh as bs else charLt a b

/-- Python string `<` on Lean strings. -/
def pyStrLt (s t : String) : Bool := strLtCh s.data t.data

/-- ASCII whitespace, the characters `str.strip` and `str.split()` treat as blank. -/
def isWs (c : Char) : Bool := c = ' ' || c = '\t' || c = '\n' || c = '\r'

/-- Split a character list into maximal runs of non-whitespace (Python `s.split()`). -/
def tokenize : List Char → List (List Char)
  | [] => []
  | c :: cs =>
    if isWs c then tokenize cs
    else
      match tokenize cs with
      | [] => [[c]]
      | t :: ts => if cs.head?.any (fun d => !isWs d) then (c :: t) :: ts else [c] :: t :: ts

/-- Python `str.strip()`: drop whitespace from both ends. -/
def pyStrip (cs : List Char) : List Char :=
  ((cs.dropWhile isWs).reverse.dropWhile isWs).reverse

/-- Numeric value of a list of decimal digit characters. -/
def natOfDigits (cs : List Char) : Nat :=
  cs.foldl (fun acc c => acc * 10 + (c.toNat - 48)) 0

/-! ## Date parsing (`pd.to_datetime` with day–month-name–year text)

Models the strptime format `%d %B %Y` used by `extract_date` in
ECT_scraping.py and the inferred parse of the MARPOL date strings
(e.g. "23 May 2006").  An unparseable string yields `none`, matching
`errors='coerce'` / the caught `ValueError`. -/

/-- Lowercased English month names, in order. -/
def monthNamesLower : List (List Char) :=
  ["january", "february", "march", "april", "may", "june", "july",
   "august", "september", "october", "november", "december"].map String.data

/-- 1-based month number of a (case-insensitive) month-name token, if any. -/
def monthNumber (tok : List Char) : Option Nat :=
  let low := tok.map Char.toLower
  match monthNamesLower.indexOf? low with
  | some i => some (i + 1)
  | none => none

/-- Gregorian leap-year test. -/
def isLeap (y : Nat) : Bool := (y % 4 = 0 && y % 100 ≠ 0) || y % 400 = 0

/-- Number of days of month `m` (1-based) in year `y`. -/
def daysInMonth (m y : Nat) : Nat :=
  if m = 2 then (if isLeap y then 29 else 28)
  else if m = 4 || m = 6 || m = 9 || m = 11 then 30
  else 31

/-- Parse a day token: one or two digits, value in 1..31. -/
def parseDay (tok : List Char) : Option Nat :=
  if (tok.length = 1 || tok.length = 2) && tok.all Char.isDigit then
    let v := natOfDigits tok
    if 1 ≤ v && v ≤ 31 then some v else none
  else none

/-- Parse a year token: exactly four digits. -/
def parseYear4 (tok : List Char) : Option Nat :=
  if tok.length = 4 && tok.all Char.isDigit then some (natOfDigits tok) else none

/-- Parse "DD MonthName YYYY" (strptime `%d %B %Y`) and return the year;
`none` when the text does not match or the day is out of range for the month. -/
def parseDayMonthYearText (cs : List Char) : Option Int :=
  match tokenize cs with
  | [d, m, y] =>
    match parseDay d, monthNumber m, parseYear4 y with
    | some dv, some mv, some yv =>
      if dv ≤ daysInMonth mv yv then some (Int.ofNat yv) else none
    | _, _, _ => none
  | _ => none

/-! ## MARPOL_Annex6_pdf.py -/

namespace MARPOL

/-- One row of the combined MARPOL table: country plus raw date strings
(`None`/NaN cells are `none`). -/
structure CombinedRow where
  country : String
  signature : Option String
  entryIntoForce : Option String
deriving DecidableEq, Repr

/-- One row of the expanded (uncleaned) panel. -/
structure PanelRawRow where
  country : String
  signature : Option String
  entryIntoForce : Option String
  year : Int
deriving DecidableEq, Repr

/-- One row of the cleaned panel: exactly the four retained columns
Country, Year, marpol_sign, marpol_effect. -/
structure PanelRow where
  country : String
  year : Int
  marpol_sign : Int
  marpol_effect : Int
deriving DecidableEq, Repr

/-- `pd.to_datetime(col, errors='coerce').dt.year` on one cell: a missing or
unparseable date becomes `none` (NaN), otherwise the year. -/
def toDatetimeYear (x : Option String) : Option Int :=
  x.bind (fun s => parseDayMonthYearText s.data)

/-- `generate_panel_data`: replicate the combined table once per calendar
year 1990..2023, concatenating year-blocks in order. -/
def generate_panel_data (combined : List CombinedRow) : List PanelRawRow :=
  (List.range' 1990 34).flatMap (fun y =>
    combined.map (fun r =>
      { country := r.country, signature := r.signature,
        entryIntoForce := r.entryIntoForce, year := (y : Int) }))

/-- `str.replace('\n','')` on the Country column. -/
def removeNewlines (s : String) : String := ⟨s.data.filter (fun c => c ≠ '\n')⟩

/-- Pandas `Series <= year` on a float column: a NaN (absent) year compares
`False`. -/
def optYearLE : Option Int → Int → Bool
  | none, _ => false
  | some v, y => v ≤ y

/-- Per-row part of `clean_panel_data`: date columns to years, Country
newline removal, the `Year < 2005` / `Year < 1997` NaN clips, then the two
0/1 indicator columns via `.astype(int)`. -/
def cleanRow (r : PanelRawRow) : PanelRow :=
  let sigY := toDatetimeYear r.signature
  let entY := toDatetimeYear r.entryIntoForce
  let entY := if r.year < 2005 then none else entY
  let sigY := if r.year < 1997 then none else sigY
  { country := removeNewlines r.country
    year := r.year
    marpol_sign := if optYearLE sigY r.year then 1 else 0
    marpol_effect := if optYearLE entY r.year then 1 else 0 }

/-- Sort key of `sort_values(by=['Country', 'Year'])`. -/
def panelLE (a b : PanelRow) : Bool :=
  pyStrLt a.country b.country || (a.country == b.country && a.year ≤ b.year)

/-- The (Country, Year) sort order as a relation. -/
def panelOrd (a b : PanelRow) : Prop := panelLE a b = true

instance : DecidableRel panelOrd := fun a b => by unfold panelOrd; infer_instance

/-- `clean_panel_data`: per-row cleaning, sort by (Country, Year), keep the
four columns.  `sort_values` uses an unstable sort, so only the (Country,
Year) order of the result is specified; the tie order of an insertion sort
is one admissible outcome. -/
def clean_panel_data (panel : List PanelRawRow) : List PanelRow :=
  (panel.map cleanRow).insertionSort panelOrd

end MARPOL

/-! ## Workbook model shared by the exporters

A workbook is the list of its sheets in creation order; a sheet holds its
grid of cells row by row.  A dataframe is its column list plus its data
rows. -/

/-- One worksheet: name and cell rows. -/
structure Sheet where
  name : String
  rows : List (List String)
deriving DecidableEq, Repr

/-- A rendered dataframe: column names and data rows. -/
structure DF where
  cols : List String
  data : List (List String)
deriving DecidableEq, Repr

/-- `df.to_excel(..., index=False)` content: header row then data rows. -/
def dfSheetRows (df : DF) : List (List String) := df.cols :: df.data

namespace MARPOL

/-- MARPOL `save_to_excel`: the combined table on 'raw data' and the cleaned
panel (rendering of `clean_panel_data (generate_panel_data combined)`) on
'panel data'.  No further sheet is written. -/
def save_to_excel (rawDF panelDF : DF) : List Sheet :=
  [⟨"raw data", dfSheetRows rawDF⟩, ⟨"panel data", dfSheetRows panelDF⟩]

end MARPOL

/-! ## DRR_subindicators.py -/

namespace DRR

/-- One row of a per-subindicator partial table from `extract_table_data`:
the three key columns plus the non-key columns it carries (column name,
cell value). -/
structure SubRow where
  country : String
  year : String
  code : Nat
  cols : List (String × String)
deriving DecidableEq, Repr

/-- The merge key `['Country', 'Year', 'Country_Code']`. -/
def key (r : SubRow) : String × String × Nat := (r.country, r.year, r.code)

/-- A merged row: left row's non-key columns then the right row's. -/
def combineRow (a b : SubRow) : SubRow := { a with cols := a.cols ++ b.cols }

/-- The rows one left row `a` contributes to an outer merge against `B`:
`a` combined with every `B` row of equal key, or `a` alone (right columns
absent) when `B` has no such row. -/
def mergeOne (B : List SubRow) (a : SubRow) : List SubRow :=
  let ms := B.filter (fun b => key b == key a)
  if ms.isEmpty then [a] else ms.map (combineRow a)

/-- `pd.merge(A, B, on=['Country', 'Year', 'Country_Code'], how='outer')`:
every left row is paired with every right row of equal key (kept alone,
right columns absent, when there is none), and right rows whose key occurs
nowhere on the left are kept with the left columns absent.  Key order of
the pandas result is not modelled; the stated theorems are
order-insensitive. -/
def pdMergeOuter (A B : List SubRow) : List SubRow :=
  A.flatMap (mergeOne B) ++
  B.filter (fun b => A.all (fun a => !(key a == key b)))

/-- `df['Country_Code'].unique()`. -/
def extracted_country_codes (df : List SubRow) : List Nat :=
  (df.map (fun r => r.code)).dedup

/-- `range(1, 194)`: the full country-code list. -/
def full_country_list : List Nat := List.range' 1 193

/-- `set(range(1, 194)) - set(extracted_country_codes)`, listed in the
increasing order in which a CPython set of small ints iterates. -/
def missing_country_codes (df : List SubRow) : List Nat :=
  full_country_list.filter (fun c => !(extracted_country_codes df).contains c)

/-- The retry block around the second `run_scraping` call (as written for
the 2005 pass): when `missing_country_codes` is empty the pass-one result
is kept and no second call happens, otherwise one pass over the missing
codes is run and concatenated.  `run` stands for `run_scraping` restricted
to a country list; the second component counts the page fetches of the
retry pass (`run_scraping` opens one URL per listed country code). -/
def retry_block (df : List SubRow) (run : List Nat → List SubRow) :
    List SubRow × Nat :=
  let missing := missing_country_codes df
  if missing.isEmpty then (df, 0)
  else (df ++ run missing, missing.length)

/-- `pd.to_numeric` on one year string: the integer it denotes, `none`
(NaN) when it is not numeric.  The scraped year cells are plain digit
strings, so only those (with surrounding whitespace) are parsed. -/
def toNumericCell (s : String) : Option Int :=
  let cs := pyStrip s.data
  if !cs.isEmpty && cs.all Char.isDigit then some (Int.ofNat (natOfDigits cs))
  else none

/-- `pd.to_numeric(col, errors='coerce')`: elementwise, failures become NaN. -/
def to_numeric_coerce (col : List String) : List (Option Int) :=
  col.map toNumericCell

/-- `.astype(int)` on a float column: raises `ValueError` when any value is
NaN, otherwise the integer column. -/
def astype_int (col : List (Option Int)) : Except String (List Int) :=
  if col.all Option.isSome then Except.ok (col.filterMap id)
  else Except.error "Cannot convert non-finite values (NA or inf) to integer"

/-- The final Year coercion
`pd.to_numeric(final_df["Year"], errors='coerce').astype(int)`. -/
def final_year_coercion (col : List String) : Except String (List Int) :=
  astype_int (to_numeric_coerce col)

/-- The long provenance note written to the Readme sheet. -/
def drr_readme_text : String :=
  "Data Source:\n" ++
  "This dataset is extracted from the Sendai Monitor (UNDRR) website, which provides data on subindicators related to disaster risk reduction strategies.\n" ++
  "Link: https://sendaimonitor.undrr.org/analytics/country-global-target/20/6?indicator=73 \n\n" ++
  "Data is scraped in this Python script: \\\\main.oecd.org\\ASgenENV\\ENVINFO\\BACKUP\\STATA\\IPAC\\CAP\\Others\\Scraping_Scripts\\DRR_subindicators.py\n" ++
  "Beware: Script runs a long time (~5h). Python version used was 3.11.7 \n" ++
  "The data for the years 2005-2015 (Kyogo Framework) and 2015-2024 (Sendai Framework) were extracted separately and then combined.\n\n" ++
  "Variables:\n" ++
  "   • Country\n" ++
  "   • Year\n" ++
  "   • e1a[i]: Subindicator data for each subindicator (e1a1 to e1a10).\n\n" ++
  "Notes on subindicators:\n" ++
  "• 1: Have objectives and measures aimed at reducing existing risk\n" ++
  "• 2: Have objectives and measures aimed at preventing the creation of risk\n" ++
  "• 3: Have objectives and measures aimed at strengthening economic, social, health, and environmental resilience\n" ++
  "• 4: Have time frames, targets, and indicators\n" ++
  "• 5: Address Priority 1 recommendations and suggestions\n" ++
  "• 6: Address Priority 2 recommendations and suggestions\n" ++
  "• 7: Address Priority 3 recommendations and suggestions\n" ++
  "• 8: Address Priority 4 recommendations and suggestions\n" ++
  "• 9: Interacted at all levels with development and poverty eradication plans and policy, notably with the SDGs.\n" ++
  "• 10: Promote coherence, interaction, and compliance with CC adaptation and mitigation plans, with the Paris Agreement\n\n" ++
  "Please refer to the 'Data' sheet for the processed data."

/-- The final `ExcelWriter` block: the combined table on a 'Data' sheet,
then a 'Readme' worksheet holding the provenance note (merged into one
cell region). -/
def drr_export (final_df : DF) : List Sheet :=
  [⟨"Data", dfSheetRows final_df⟩, ⟨"Readme", [[drr_readme_text]]⟩]

end DRR

/-! ## ECT_scraping.py -/

namespace ECT

/-- Extract the segment Python's `text.split(sep)[1]` denotes: the
characters after the first occurrence of `sep`, up to its next
occurrence.  `none` when `sep` does not occur. -/
def afterFirst (sep : List Char) : List Char → Option (List Char)
  | [] => if sep.isEmpty then some [] else none
  | c :: cs =>
    if sep.isPrefixOf (c :: cs) then some ((c :: cs).drop sep.length)
    else afterFirst sep cs

/-- Characters before the next occurrence of `sep`. -/
def upToNext (sep : List Char) : List Char → List Char
  | [] => []
  | c :: cs => if sep.isPrefixOf (c :: cs) then [] else c :: upToNext sep cs

/-- `extract_date`: `None` for a null cell; when the prefix occurs in the
text (`afterFirst` finds it), the segment `text.split(prefix)[1]` is
stripped and parsed with format `%d %B %Y` and the year returned, any
`IndexError`/`ValueError` (including the empty-separator error of `split`)
yielding `None`; `None` when the prefix is absent. -/
def extract_date (text : Option String) (pfx : String) : Option Int :=
  match text with
  | none => none
  | some t =>
    match afterFirst pfx.data t.data with
    | none => none
    | some rest =>
      if pfx.data.isEmpty then none
      else parseDayMonthYearText (pyStrip (upToNext pfx.data rest))

/-- A dataframe cell value as `update_dataframe_withdrawals` writes them:
an integer year or a literal string. -/
inductive CellV where
  | num (n : Int)
  | text (s : String)
deriving DecidableEq, Repr

/-- One dataframe row: the Country key and the remaining columns as an
association list; a column absent from the list reads as NaN. -/
structure ERow where
  country : String
  cells : List (String × CellV)
deriving DecidableEq, Repr

/-- Read one cell (NaN as `none`). -/
def getCell (r : ERow) (k : String) : Option CellV :=
  (r.cells.find? (fun p => p.1 == k)).map (fun p => p.2)

/-- `df.loc[row, k] = v`: overwrite the column if the row has it, create it
otherwise. -/
def setCell (r : ERow) (k : String) (v : CellV) : ERow :=
  { r with cells :=
      if (r.cells.find? (fun p => p.1 == k)).isSome then
        r.cells.map (fun p => if p.1 == k then (p.1, v) else p)
      else r.cells ++ [(k, v)] }

/-- `pd.to_datetime('YYYY-MM-DD').year`: every date in the manual table is
ISO formatted, so the year is its leading four digits. -/
def isoYear (s : String) : Int := Int.ofNat (natOfDigits (s.data.take 4))

/-- The value written for a manual-table entry: the year unless the literal
is 'N.A.', which is written unchanged. -/
def convVal (v : String) : CellV :=
  if v ≠ "N.A." then CellV.num (isoYear v) else CellV.text v

/-- The inner loop `for key, value in dates.items(): df.loc[...] = ...`
acting on one matched row. -/
def applyDates (r : ERow) (dates : List (String × String)) : ERow :=
  dates.foldl (fun r kv => setCell r kv.1 (convVal kv.2)) r

/-- The row appended for a manual-table country absent from the dataframe. -/
def newRow (c : String) (dates : List (String × String)) : ERow :=
  ⟨c, dates.map (fun kv => (kv.1, convVal kv.2))⟩

/-- The hand-curated withdrawal table, in dict insertion order. -/
def withdrawal_data : List (String × List (String × String)) :=
  [ ("Italy",
     [("date_withdrawal_notification", "2014-12-31"),
      ("date_withdrawal_effect", "2016-01-01"),
      ("date_ratification", "1997-12-05")]),
    ("France",
     [("date_withdrawal_notification", "2022-12-07"),
      ("date_withdrawal_effect", "2023-12-08"),
      ("date_ratification", "1999-09-01")]),
    ("Germany",
     [("date_withdrawal_notification", "2022-12-19"),
      ("date_withdrawal_effect", "2023-12-20"),
      ("date_ratification", "1997-03-14")]),
    ("Poland",
     [("date_withdrawal_notification", "2022-12-28"),
      ("date_withdrawal_effect", "2023-12-29"),
      ("date_ratification", "2000-11-24")]),
    ("Luxembourg",
     [("date_withdrawal_notification", "2023-06-16"),
      ("date_withdrawal_effect", "2024-06-17")]),
    ("European Union and Euratom",
     [("date_withdrawal_notification", "2024-05-30"),
      ("date_withdrawal_effect", "2025-05-30")]),
    ("Spain",
     [("date_withdrawal_notification", "2024-04-16"),
      ("date_withdrawal_effect", "2025-04-17")]),
    ("United Kingdom",
     [("date_withdrawal_notification", "2024-04-26"),
      ("date_withdrawal_effect", "2025-04-27")]) ]

/-- `country in df['Country'].values`. -/
def hasCountry (df : List ERow) (c : String) : Bool :=
  df.any (fun r => r.country == c)

/-- One iteration of the loop of `update_dataframe_withdrawals`. -/
def withdrawalStep (df : List ERow) (e : String × List (String × String)) :
    List ERow :=
  if hasCountry df e.1 then
    df.map (fun r => if r.country == e.1 then applyDates r e.2 else r)
  else df ++ [newRow e.1 e.2]

/-- `update_dataframe_withdrawals` with the fixed manual table. -/
def update_dataframe_withdrawals (df : List ERow) : List ERow :=
  withdrawal_data.foldl withdrawalStep df

/-- The per-row effect of the loop: a row of a country listed in the table
gets that country's dates applied, every other row is untouched. -/
def transf (table : List (String × List (String × String))) (r : ERow) : ERow :=
  match table.find? (fun e => r.country == e.1) with
  | some e => applyDates r e.2
  | none => r

/-- The rows the loop appends: one `newRow` per table country absent from
the dataframe, in table order. -/
def appendedRows (table : List (String × List (String × String)))
    (df : List ERow) : List ERow :=
  (table.filter (fun e => !hasCountry df e.1)).map (fun e => newRow e.1 e.2)

/-- The Readme lines of `add_readme_to_worksheet`. -/
def readme_text : List String :=
  [ "This file contains the data scraped from the Energy Charter Treaty website: ",
    "https://www.energychartertreaty.org/treaty/contracting-parties-and-signatories/",
    "Countries Italy, France, Germany, and Poland have already effectively withdrawn from the treaty at the time of the data extraction (July 2024), ",
    "so their withdrawal and signature dates did not appear on the website and were manually added.",
    "The pyhton script used to extract the data and create this file can be found at",
    "\\\\main.oecd.org\\ASgenENV\\ENVINFO\\BACKUP\\STATA\\IPAC\\CAP\\Others\\Scraping_Scripts\\ECT_scraping.py" ]

/-- ECT `save_to_excel`: Readme sheet (one line per row, column 1) then the
data sheet written by `dataframe_to_rows(df, index=False, header=True)`. -/
def save_to_excel (df : DF) : List Sheet :=
  [⟨"Readme", readme_text.map (fun l => [l])⟩,
   ⟨"Energy_charter_treaty_2024", dfSheetRows df⟩]

end ECT

/-! ## LVC_pdf_scraping.py -/

namespace LVC

/-- `df.replace('', pd.NA)` on one column. -/
def replaceEmptyNA (col : List String) : List (Option String) :=
  col.map (fun s => if s = "" then none else some s)

/-- `fillna(method='ffill')`: each NA takes the closest preceding non-NA
value; leading NAs stay NA. -/
def ffill (col : List (Option String)) : List (Option String) :=
  (col.foldl
    (fun (acc : List (Option String) × Option String) x =>
      match x with
      | some v => (acc.1 ++ [some v], some v)
      | none => (acc.1 ++ [acc.2], acc.2))
    ([], none)).1

/-- Python regex word character (`\w`), over the ASCII strings at hand. -/
def wordChar (c : Char) : Bool := c.isAlphanum || c = '_'

/-- `re.findall(r'\b\d{4}\b', text)` as the regex engine runs it: scan left
to right carrying the previous character, emit a match at each position
where four digits sit between word boundaries, and resume after it. -/
def findFourDigit (prev : Option Char) : List Char → List (List Char)
  | c1 :: c2 :: c3 :: c4 :: rest =>
    if prev.all (fun p => !wordChar p) && c1.isDigit && c2.isDigit &&
        c3.isDigit && c4.isDigit && rest.head?.all (fun d => !wordChar d) then
      [c1, c2, c3, c4] :: findFourDigit (some c4) rest
    else findFourDigit (some c1) (c2 :: c3 :: c4 :: rest)
  | _ => []

/-- `extract_valid_years`: all `\b\d{4}\b` matches, as integers, filtered
to 1800..2025; the list when non-empty, `None` otherwise. -/
def extract_valid_years (text : String) : Option (List Int) :=
  let found := findFourDigit none text.data
  let valid_years := (found.map (fun m => Int.ofNat (natOfDigits m))).filter
    (fun y => 1800 ≤ y && y ≤ 2025)
  if valid_years.isEmpty then none else some valid_years

/-- The `ExcelWriter` block of `extract_LVC_Data`: only the combined table
is written (the subset sheet is commented out and no readme sheet exists). -/
def lvc_export (combined_df : DF) : List Sheet :=
  [⟨"Combined", dfSheetRows combined_df⟩]

/-! Modelled from the spec's words for claim C10 only: the declarative
reading "standalone four-digit number", to be compared with the scanner
above. -/

/-- Whether position `i` of `s`, read with `prev` as the character just
before `s` (none at text start), begins a standalone four-digit number:
four digits with no word character adjacent. -/
def standaloneCtx (prev : Option Char) (s : List Char) (i : Nat) : Bool :=
  i + 4 ≤ s.length && ((s.drop i).take 4).all Char.isDigit &&
  (if i = 0 then prev.all (fun c => !wordChar c)
   else !wordChar (s.getD (i - 1) ' ')) &&
  (s.length = i + 4 || !wordChar (s.getD (i + 4) ' '))

/-- All standalone four-digit windows of `s` under context `prev`, in
order of occurrence. -/
def standaloneWindows (prev : Option Char) (s : List Char) : List (List Char) :=
  ((List.range s.length).filter (standaloneCtx prev s)).map
    (fun i => (s.drop i).take 4)

/-- The spec-side value of `extract_valid_years`: the standalone four-digit
numbers of the text whose value lies in 1800..2025, in order of
occurrence. -/
def standaloneYearsSpec (text : String) : List Int :=
  ((standaloneWindows none text.data).map (fun m => Int.ofNat (natOfDigits m))).filter
    (fun y => 1800 ≤ y && y ≤ 2025)

end LVC

/-! # Theorems -/

/-! ## C7 -/

/-- C7: the empty-string-to-absent replacement followed by forward-fill on
the 'Instrument (OECD-Lincoln taxonomy)' column maps
["Tax", "", "", "Fee", ""] to ["Tax", "Tax", "Tax", "Fee", "Fee"]: every
blank entry takes the last preceding non-empty value. -/
theorem c7_forward_fill :
    LVC.ffill (LVC.replaceEmptyNA ["Tax", "", "", "Fee", ""]) =
      [some "Tax", some "Tax", some "Tax", some "Fee", some "Fee"] := by
  decide

/-! ## C4 -/

/-- C4: the final Year coercion of the DRR script raises on a column with
an unparseable year string — `pd.to_numeric(..., errors='coerce')` turns
'No data' into NaN, but the chained `.astype(int)` then raises `ValueError`
rather than keeping the absent marker (the claim holds only when every
string is parseable); the MARPOL date coercion does map an unparseable
string to an absent value without raising. -/
theorem c4_year_coercion :
    DRR.final_year_coercion ["2015", "No data"] =
      Except.error "Cannot convert non-finite values (NA or inf) to integer" ∧
    DRR.final_year_coercion ["2015", "2016"] = Except.ok [2015, 2016] ∧
    MARPOL.toDatetimeYear (some "No data") = none := by
  refine ⟨rfl, rfl, rfl⟩

/-! ## C3 -/

/-- C3 counterexample: the LVC exporter writes a workbook with exactly one
sheet (the 'Combined' data sheet; the subset sheet is commented out and no
readme sheet exists), so the claim that every script's exporter writes at
least two sheets, one of them a documentation sheet, is false. -/
theorem c3_counterexample :
    LVC.lvc_export ⟨["Instrument (OECD-Lincoln taxonomy)"], [["Tax"]]⟩ =
      [⟨"Combined", [["Instrument (OECD-Lincoln taxonomy)"], ["Tax"]]⟩] ∧
    (LVC.lvc_export ⟨["Instrument (OECD-Lincoln taxonomy)"], [["Tax"]]⟩).length = 1 := by
  refine ⟨by decide, by decide⟩

/-- C3 amended: the DRR and ECT exporters write exactly two sheets — one
data sheet whose header row is the table's columns in the table's order,
and one readme sheet with non-empty text; the LVC exporter writes a single
data sheet and no documentation sheet; the MARPOL exporter writes two data
sheets (raw and panel, header rows equal to the respective columns) and no
documentation sheet. -/
theorem c3_amended (df dfr dfp : DF) :
    ECT.save_to_excel df =
      [⟨"Readme", ECT.readme_text.map (fun l => [l])⟩,
       ⟨"Energy_charter_treaty_2024", df.cols :: df.data⟩] ∧
    (ECT.save_to_excel df).length = 2 ∧
    (∀ l ∈ ECT.readme_text, l ≠ "") ∧
    ECT.readme_text ≠ [] ∧
    DRR.drr_export df =
      [⟨"Data", df.cols :: df.data⟩, ⟨"Readme", [[DRR.drr_readme_text]]⟩] ∧
    DRR.drr_readme_text ≠ "" ∧
    (LVC.lvc_export df).length = 1 ∧
    MARPOL.save_to_excel dfr dfp =
      [⟨"raw data", dfr.cols :: dfr.data⟩, ⟨"panel data", dfp.cols :: dfp.data⟩] := by
  refine ⟨rfl, rfl, by decide, by decide, rfl, by decide, rfl, rfl⟩

/-- Witness for the amended C3 at a concrete dataframe and readme line. -/
theorem c3_amended_witness :
    "https://www.energychartertreaty.org/treaty/contracting-parties-and-signatories/" ∈
      ECT.readme_text ∧
    "https://www.energychartertreaty.org/treaty/contracting-parties-and-signatories/" ≠ "" :=
  ⟨by decide,
   (c3_amended ⟨["Country"], []⟩ ⟨["Country"], []⟩ ⟨["Country"], []⟩).2.2.1
     "https://www.energychartertreaty.org/treaty/contracting-parties-and-signatories/"
     (by decide)⟩

/-! ## C2 -/

/-- C2: in the retry block, the set handed to the retry pass is exactly the
full country-code list 1..193 minus the pass-one Country_Code values, and
when that difference is empty no second `run_scraping` call is made and
the pass-one result is returned unchanged (the logic of the 2005 retry
block; the 2024 block reads the undefined name `final_df_2024` instead of
the pass-one result, which makes the script raise `NameError` there). -/
theorem c2_retry_set (df : List DRR.SubRow) (run : List Nat → List DRR.SubRow) :
    (∀ c, c ∈ DRR.missing_country_codes df ↔
      (c ∈ DRR.full_country_list ∧ c ∉ DRR.extracted_country_codes df)) ∧
    (∀ c, c ∈ DRR.extracted_country_codes df ↔ ∃ r ∈ df, r.code = c) ∧
    (DRR.missing_country_codes df = [] → DRR.retry_block df run = (df, 0)) ∧
    (DRR.missing_country_codes df ≠ [] →
      DRR.retry_block df run =
        (df ++ run (DRR.missing_country_codes df),
         (DRR.missing_country_codes df).length)) := by
  refine ⟨?_, ?_, ?_, ?_⟩
  · intro c
    simp [DRR.missing_country_codes, List.mem_filter]
  · intro c
    simp [DRR.extracted_country_codes, List.mem_dedup, List.mem_map, eq_comm]
  · intro h
    simp [DRR.retry_block, h]
  · intro h
    simp [DRR.retry_block, h]

set_option maxRecDepth 10000 in
/-- Witness for C2: with every country code 1..193 present in pass one the
deficit is empty and the retry block performs zero fetches. -/
theorem c2_retry_set_witness :
    DRR.missing_country_codes
        ((List.range' 1 193).map (fun i => ⟨"X", "2015", i, []⟩)) = [] ∧
    DRR.retry_block ((List.range' 1 193).map (fun i => ⟨"X", "2015", i, []⟩))
        (fun _ => []) =
      (((List.range' 1 193).map (fun i => ⟨"X", "2015", i, []⟩)), 0) :=
  ⟨by decide,
   (c2_retry_set ((List.range' 1 193).map (fun i => ⟨"X", "2015", i, []⟩))
     (fun _ => [])).2.2.1 (by decide)⟩

/-! ## C6 -/

/-- C6: `extract_date` on "ratified on 05 December 1997" with prefix
"ratified on" yields 1997; a null cell, a text lacking the prefix
(`afterFirst` finds no occurrence), or a text whose segment after the
prefix does not parse as a `%d %B %Y` date all yield an absent value — the
function is total, so it never raises. -/
theorem c6_extract_date :
    ECT.extract_date (some "ratified on 05 December 1997") "ratified on" = some 1997 ∧
    (∀ p, ECT.extract_date none p = none) ∧
    (∀ t p, ECT.afterFirst p.data t.data = none →
      ECT.extract_date (some t) p = none) ∧
    (∀ t p rest, ECT.afterFirst p.data t.data = some rest →
      parseDayMonthYearText (pyStrip (ECT.upToNext p.data rest)) = none →
      ECT.extract_date (some t) p = none) := by
  refine ⟨by decide, fun p => rfl, ?_, ?_⟩
  · intro t p h
    simp [ECT.extract_date, h]
  · intro t p rest h hp
    simp only [ECT.extract_date, h]
    split
    · rfl
    · exact hp

/-- Witness for C6 at texts lacking the prefix and with an unparseable
date. -/
theorem c6_extract_date_witness :
    ECT.extract_date (some "hello world") "ratified on" = none ∧
    ECT.extract_date (some "ratified on someday") "ratified on" = none :=
  ⟨c6_extract_date.2.2.1 "hello world" "ratified on" (by decide),
   c6_extract_date.2.2.2 "ratified on someday" "ratified on" " someday".data
     (by decide) (by decide)⟩

/-! ## C5 -/

/-- C5 counterexample: two partial tables that contain exactly the same key
triples (each twice) merge to four rows for a single distinct key triple,
with duplicated rows — the outer join yields one row per key only when each
partial table's keys are unique. -/
theorem c5_counterexample :
    (DRR.pdMergeOuter
        [⟨"C", "2015", 7, [("e1a1", "x")]⟩, ⟨"C", "2015", 7, [("e1a1", "x")]⟩]
        [⟨"C", "2015", 7, [("e1a2", "y")]⟩, ⟨"C", "2015", 7, [("e1a2", "y")]⟩]).length = 4 ∧
    ((DRR.pdMergeOuter
        [⟨"C", "2015", 7, [("e1a1", "x")]⟩, ⟨"C", "2015", 7, [("e1a1", "x")]⟩]
        [⟨"C", "2015", 7, [("e1a2", "y")]⟩, ⟨"C", "2015", 7, [("e1a2", "y")]⟩]).map
      DRR.key).dedup = [("C", "2015", 7)] ∧
    ([(⟨"C", "2015", 7, [("e1a1", "x")]⟩ : DRR.SubRow), ⟨"C", "2015", 7, [("e1a1", "x")]⟩].map
      DRR.key).dedup =
      ([(⟨"C", "2015", 7, [("e1a2", "y")]⟩ : DRR.SubRow), ⟨"C", "2015", 7, [("e1a2", "y")]⟩].map
        DRR.key).dedup ∧
    ¬ (DRR.pdMergeOuter
        [⟨"C", "2015", 7, [("e1a1", "x")]⟩, ⟨"C", "2015", 7, [("e1a1", "x")]⟩]
        [⟨"C", "2015", 7, [("e1a2", "y")]⟩, ⟨"C", "2015", 7, [("e1a2", "y")]⟩]).Nodup := by
  refine ⟨by decide, by decide, by decide, by decide⟩

/-! ## C9 and C1: the MARPOL panel -/

theorem charLt_trans {a b c : Char} (h1 : charLt a b = true)
    (h2 : charLt b c = true) : charLt a c = true := by
  simp only [charLt, decide_eq_true_eq] at h1 h2 ⊢
  exact lt_trans h1 h2

theorem charLt_asymm {a b : Char} (h1 : charLt a b = true)
    (h2 : charLt b a = true) : False := by
  simp only [charLt, decide_eq_true_eq] at h1 h2
  exact lt_asymm h1 h2

theorem strLtCh_trans : ∀ (as bs cs : List Char),
    strLtCh as bs = true → strLtCh bs cs = true → strLtCh as cs = true := by
  intro as
  induction as with
  | nil =>
    intro bs cs h1 h2
    cases bs with
    | nil => simp [strLtCh] at h1
    | cons b bs' =>
      cases cs with
      | nil => simp [strLtCh] at h2
      | cons c cs' => simp [strLtCh]
  | cons a as' ih =>
    intro bs cs h1 h2
    cases bs with
    | nil => simp [strLtCh] at h1
    | cons b bs' =>
      cases cs with
      | nil => simp [strLtCh] at h2
      | cons c cs' =>
        simp only [strLtCh] at h1 h2 ⊢
        by_cases hab : a = b
        · subst hab
          simp only [if_pos rfl] at h1
          by_cases hbc : a = c
          · subst hbc
            simp only [if_pos rfl] at h2 ⊢
            exact ih _ _ h1 h2
          · simp only [if_neg hbc] at h2 ⊢
            exact h2
        · simp only [if_neg hab] at h1
          by_cases hbc : b = c
          · subst hbc
            simp only [if_neg hab]
            exact h1
          · simp only [if_neg hbc] at h2
            by_cases hac : a = c
            · subst hac
              exact (charLt_asymm h1 h2).elim
            · simp only [if_neg hac]
              exact charLt_trans h1 h2

theorem strLtCh_trichotomy : ∀ (as bs : List Char),
    strLtCh as bs = true ∨ strLtCh bs as = true ∨ as = bs := by
  intro as
  induction as with
  | nil =>
    intro bs
    cases bs with
    | nil => right; right; rfl
    | cons b bs' => left; simp [strLtCh]
  | cons a as' ih =>
    intro bs
    cases bs with
    | nil => right; left; simp [strLtCh]
    | cons b bs' =>
      by_cases hab : a = b
      · subst hab
        rcases ih bs' with h | h | h
        · left; simp [strLtCh, h]
        · right; left; simp [strLtCh, h]
        · right; right; rw [h]
      · rcases lt_or_gt_of_ne hab with h | h
        · left; simp [strLtCh, hab, charLt, h]
        · right; left; simp [strLtCh, Ne.symm hab, charLt, h]

theorem panelLE_trans (a b c : MARPOL.PanelRow)
    (h1 : MARPOL.panelLE a b = true) (h2 : MARPOL.panelLE b c = true) :
    MARPOL.panelLE a c = true := by
  simp only [MARPOL.panelLE, pyStrLt, Bool.or_eq_true, Bool.and_eq_true,
    beq_iff_eq, decide_eq_true_eq] at h1 h2 ⊢
  rcases h1 with h1 | ⟨h1e, h1y⟩
  · rcases h2 with h2 | ⟨h2e, h2y⟩
    · exact Or.inl (strLtCh_trans _ _ _ h1 h2)
    · left; rw [← h2e]; exact h1
  · rcases h2 with h2 | ⟨h2e, h2y⟩
    · left; rw [h1e]; exact h2
    · exact Or.inr ⟨h1e.trans h2e, le_trans h1y h2y⟩

theorem panelLE_total (a b : MARPOL.PanelRow) :
    MARPOL.panelLE a b = true ∨ MARPOL.panelLE b a = true := by
  simp only [MARPOL.panelLE, pyStrLt, Bool.or_eq_true, Bool.and_eq_true,
    beq_iff_eq, decide_eq_true_eq]
  rcases strLtCh_trichotomy a.country.data b.country.data with h | h | h
  · exact Or.inl (Or.inl h)
  · exact Or.inr (Or.inl h)
  · have he : a.country = b.country := String.ext h
    rcases le_total a.year b.year with hy | hy
    · exact Or.inl (Or.inr ⟨he, hy⟩)
    · exact Or.inr (Or.inr ⟨he.symm, hy⟩)

theorem indicator_zero_or_one (b : Bool) :
    ((if b = true then (1 : Int) else 0) = 0 ∨
      (if b = true then (1 : Int) else 0) = 1) := by
  cases b <;> simp

/-- C9: for every input, `clean_panel_data` returns rows carrying exactly
the columns (Country, Year, marpol_sign, marpol_effect) — the `PanelRow`
fields — where both indicators are always 0 or 1 (never an absent value,
also when a source date is missing or unparseable, since a NaN year
compares `False` and `.astype(int)` maps that to 0), and the rows are
sorted by (Country, Year). -/
theorem c9_clean_panel_invariants (panel : List MARPOL.PanelRawRow) :
    (∀ r ∈ MARPOL.clean_panel_data panel,
      (r.marpol_sign = 0 ∨ r.marpol_sign = 1) ∧
      (r.marpol_effect = 0 ∨ r.marpol_effect = 1)) ∧
    List.Sorted MARPOL.panelOrd (MARPOL.clean_panel_data panel) := by
  constructor
  · intro r hr
    rw [MARPOL.clean_panel_data, List.mem_insertionSort] at hr
    obtain ⟨x, hx, rfl⟩ := List.mem_map.mp hr
    constructor
    · simp only [MARPOL.cleanRow]
      exact indicator_zero_or_one _
    · simp only [MARPOL.cleanRow]
      exact indicator_zero_or_one _
  · haveI : IsTrans MARPOL.PanelRow MARPOL.panelOrd :=
      ⟨fun a b c => panelLE_trans a b c⟩
    haveI : IsTotal MARPOL.PanelRow MARPOL.panelOrd :=
      ⟨fun a b => panelLE_total a b⟩
    exact List.sorted_insertionSort MARPOL.panelOrd _

/-- Witness for C9 at a concrete two-row panel (one missing date, one
unparseable would behave alike): the first sorted row has 0/1 indicators
and the output is sorted. -/
theorem c9_clean_panel_invariants_witness :
    ((⟨"A", 1999, 0, 0⟩ : MARPOL.PanelRow).marpol_sign = 0 ∨
      (⟨"A", 1999, 0, 0⟩ : MARPOL.PanelRow).marpol_sign = 1) ∧
    List.Sorted MARPOL.panelOrd
      (MARPOL.clean_panel_data
        [⟨"B", some "01 January 1999", none, 2000⟩, ⟨"A", none, none, 1999⟩]) :=
  ⟨((c9_clean_panel_invariants
      [⟨"B", some "01 January 1999", none, 2000⟩, ⟨"A", none, none, 1999⟩]).1
      ⟨"A", 1999, 0, 0⟩ (by decide)).1,
   (c9_clean_panel_invariants
      [⟨"B", some "01 January 1999", none, 2000⟩, ⟨"A", none, none, 1999⟩]).2⟩

/-! ## C1 -/

/-- C1 counterexample: for an entity whose signature date parses to year
1999 and whose entry-into-force date parses to year 2000, the panel
restricted to 1995–2002 has `marpol_sign = 1` exactly from 1999 on, but
`marpol_effect` is 0 for every year — including 2000–2002 where the claim
requires 1 — because `clean_panel_data` discards the EntryintoForce year
for all years before 2005; and before the cutoffs the indicators are the
integer 0, not an invalid/absent designation. -/
theorem c1_counterexample :
    ((MARPOL.clean_panel_data (MARPOL.generate_panel_data
        [⟨"Testland", some "01 January 1999", some "01 January 2000"⟩])).filter
      (fun r => 1995 ≤ r.year && r.year ≤ 2002)).map
      (fun r => (r.year, r.marpol_sign, r.marpol_effect)) =
    [(1995, 0, 0), (1996, 0, 0), (1997, 0, 0), (1998, 0, 0),
     (1999, 1, 0), (2000, 1, 0), (2001, 1, 0), (2002, 1, 0)] := by
  decide

set_option maxRecDepth 4096 in
/-- C1 amended: for every entity whose signature date parses to year 1999
and entry-into-force date to year 2000, the expanded and cleaned panel
restricted to 1995–2002 has `marpol_sign = 1` exactly for years ≥ 1999,
while `marpol_effect = 0` for every year of that range (the fixed cutoff
2005 discards the entry-into-force year for all years < 2005, and an
indicator computed from a discarded date is the integer 0, not an
invalid/absent designation). -/
theorem c1_marpol_panel_amended (c sig ent : String)
    (hsig : MARPOL.toDatetimeYear (some sig) = some 1999)
    (hent : MARPOL.toDatetimeYear (some ent) = some 2000) :
    ∀ r ∈ MARPOL.clean_panel_data
        (MARPOL.generate_panel_data [⟨c, some sig, some ent⟩]),
      1995 ≤ r.year → r.year ≤ 2002 →
      ((r.marpol_sign = 1 ↔ 1999 ≤ r.year) ∧ r.marpol_effect = 0) := by
  intro r hr h1 h2
  rw [MARPOL.clean_panel_data, List.mem_insertionSort] at hr
  obtain ⟨x, hx, rfl⟩ := List.mem_map.mp hr
  simp only [MARPOL.generate_panel_data] at hx
  rw [List.mem_flatMap] at hx
  obtain ⟨y, hy, hx⟩ := hx
  rw [List.mem_map] at hx
  obtain ⟨a, ha, rfl⟩ := hx
  rw [List.mem_singleton] at ha
  subst ha
  rw [List.mem_range'] at hy
  obtain ⟨i, hi, rfl⟩ := hy
  simp only [MARPOL.cleanRow] at h1 h2 ⊢
  constructor
  · by_cases h97 : ((1990 + 1 * i : ℕ) : Int) < 1997
    · rw [if_pos h97]
      simp only [MARPOL.optYearLE]
      rw [if_neg (by simp)]
      constructor
      · intro h; exact absurd h (by norm_num)
      · intro h; exfalso; omega
    · rw [if_neg h97, hsig]
      simp only [MARPOL.optYearLE, decide_eq_true_eq]
      split_ifs with hs
      · exact ⟨fun _ => hs, fun _ => rfl⟩
      · constructor
        · intro h; exact absurd h (by norm_num)
        · intro h; exact absurd h hs
  · have h05 : ((1990 + 1 * i : ℕ) : Int) < 2005 := by omega
    rw [if_pos h05]
    simp [MARPOL.optYearLE]

/-! ## C5: outer-join merge -/

theorem key_combineRow (a b : DRR.SubRow) :
    DRR.key (DRR.combineRow a b) = DRR.key a := rfl

theorem filter_key_length_le_one (l : List DRR.SubRow)
    (k : String × String × Nat) (h : (l.map DRR.key).Nodup) :
    (l.filter (fun b => DRR.key b == k)).length ≤ 1 := by
  induction l with
  | nil => simp
  | cons b l ih =>
    simp only [List.map_cons, List.nodup_cons] at h
    rw [List.filter_cons]
    by_cases hb : (DRR.key b == k) = true
    · rw [if_pos hb]
      have hnil : l.filter (fun b' => DRR.key b' == k) = [] := by
        rw [List.filter_eq_nil_iff]
        intro b' hb' hb'k
        apply h.1
        have h1 : DRR.key b' = k := by simpa using hb'k
        have h2 : DRR.key b = k := by simpa using hb
        rw [List.mem_map]
        exact ⟨b', hb', by rw [h1, h2]⟩
      rw [hnil]
      simp
    · rw [if_neg hb]
      exact ih h.2

theorem mergeOne_keys (B : List DRR.SubRow) (a : DRR.SubRow)
    (hB : (B.map DRR.key).Nodup) :
    (DRR.mergeOne B a).map DRR.key = [DRR.key a] := by
  simp only [DRR.mergeOne]
  rcases hms : B.filter (fun b => DRR.key b == DRR.key a) with _ | ⟨b, t⟩
  · simp
  · have hlen := filter_key_length_le_one B (DRR.key a) hB
    rw [hms] at hlen
    rcases t with _ | ⟨b', t'⟩
    · have hb : DRR.key b = DRR.key a := by
        have : b ∈ B.filter (fun b => DRR.key b == DRR.key a) := by
          rw [hms]; exact List.mem_singleton_self b
        simpa using (List.mem_filter.mp this).2
      simp [key_combineRow, hb]
    · simp at hlen

theorem pdMergeOuter_keys (A B : List DRR.SubRow)
    (hB : (B.map DRR.key).Nodup) :
    (DRR.pdMergeOuter A B).map DRR.key =
      A.map DRR.key ++
      (B.filter (fun b => A.all (fun a => !(DRR.key a == DRR.key b)))).map
        DRR.key := by
  rw [DRR.pdMergeOuter, List.map_append]
  congr 1
  induction A with
  | nil => rfl
  | cons a A ih =>
    rw [List.flatMap_cons, List.map_append, ih, mergeOne_keys B a hB,
      List.map_cons]
    rfl

/-- C5 amended: for two partial tables in which each key triple
(Country, Year, Country_Code) occurs at most once — as holds for the
per-subindicator tables, one row per displayed year — the outer-join merge
has pairwise distinct key triples, its keys are exactly the union of the
two key sets, each key pair present in both tables yields the combined
row (non-key columns of both sides), keys present in only one table keep
that table's row, and the merged table has no duplicated rows (so exactly
one row per distinct key triple; without the uniqueness hypotheses this
fails, see the counterexample). -/
theorem c5_outer_merge_amended (A B : List DRR.SubRow)
    (hA : (A.map DRR.key).Nodup) (hB : (B.map DRR.key).Nodup) :
    ((DRR.pdMergeOuter A B).map DRR.key).Nodup ∧
    (∀ k, k ∈ (DRR.pdMergeOuter A B).map DRR.key ↔
      (k ∈ A.map DRR.key ∨ k ∈ B.map DRR.key)) ∧
    (∀ a ∈ A, ∀ b ∈ B, DRR.key a = DRR.key b →
      DRR.combineRow a b ∈ DRR.pdMergeOuter A B) ∧
    (∀ a ∈ A, (∀ b ∈ B, DRR.key b ≠ DRR.key a) →
      a ∈ DRR.pdMergeOuter A B) ∧
    (∀ b ∈ B, (∀ a ∈ A, DRR.key a ≠ DRR.key b) →
      b ∈ DRR.pdMergeOuter A B) ∧
    (DRR.pdMergeOuter A B).Nodup := by
  have hkeys := pdMergeOuter_keys A B hB
  have hfilterSub :
      ((B.filter (fun b => A.all (fun a => !(DRR.key a == DRR.key b)))).map
        DRR.key).Sublist (B.map DRR.key) :=
    (List.filter_sublist B).map DRR.key
  have hnodup : ((DRR.pdMergeOuter A B).map DRR.key).Nodup := by
    rw [hkeys, List.nodup_append]
    refine ⟨hA, hfilterSub.nodup hB, ?_⟩
    intro k hkA hkF
    rw [List.mem_map] at hkF
    obtain ⟨b, hbf, rfl⟩ := hkF
    rw [List.mem_filter] at hbf
    rw [List.mem_map] at hkA
    obtain ⟨a, haA, hak⟩ := hkA
    have := List.all_eq_true.mp hbf.2 a haA
    simp only [Bool.not_eq_true', beq_eq_false_iff_ne, ne_eq] at this
    exact this hak
  refine ⟨hnodup, ?_, ?_, ?_, ?_, List.Nodup.of_map DRR.key hnodup⟩
  · intro k
    rw [hkeys, List.mem_append]
    constructor
    · rintro (h | h)
      · exact Or.inl h
      · rw [List.mem_map] at h
        obtain ⟨b, hbf, rfl⟩ := h
        exact Or.inr (List.mem_map_of_mem DRR.key (List.mem_filter.mp hbf).1)
    · rintro (h | h)
      · exact Or.inl h
      · by_cases hkA : k ∈ A.map DRR.key
        · exact Or.inl hkA
        · right
          rw [List.mem_map] at h
          obtain ⟨b, hbB, rfl⟩ := h
          refine List.mem_map_of_mem DRR.key (List.mem_filter.mpr ⟨hbB, ?_⟩)
          rw [List.all_eq_true]
          intro a haA
          simp only [Bool.not_eq_true', beq_eq_false_iff_ne, ne_eq]
          intro hak
          exact hkA (List.mem_map.mpr ⟨a, haA, hak⟩)
  · intro a haA b hbB hab
    rw [DRR.pdMergeOuter, List.mem_append]
    left
    rw [List.mem_flatMap]
    refine ⟨a, haA, ?_⟩
    have hbm : b ∈ B.filter (fun b => DRR.key b == DRR.key a) :=
      List.mem_filter.mpr ⟨hbB, by simp [hab]⟩
    have hne : ¬((B.filter (fun b => DRR.key b == DRR.key a)).isEmpty = true) := by
      intro h
      rw [List.isEmpty_iff] at h
      rw [h] at hbm
      exact absurd hbm (List.not_mem_nil b)
    simp only [DRR.mergeOne]
    rw [if_neg hne]
    exact List.mem_map_of_mem (DRR.combineRow a) hbm
  · intro a haA hnone
    rw [DRR.pdMergeOuter, List.mem_append]
    left
    rw [List.mem_flatMap]
    refine ⟨a, haA, ?_⟩
    have hemp : (B.filter (fun b => DRR.key b == DRR.key a)).isEmpty = true := by
      rw [List.isEmpty_iff, List.filter_eq_nil_iff]
      intro b hbB hkb
      exact hnone b hbB (by simpa using hkb)
    simp only [DRR.mergeOne]
    rw [if_pos hemp]
    exact List.mem_singleton_self a
  · intro b hbB hnone
    rw [DRR.pdMergeOuter, List.mem_append]
    right
    refine List.mem_filter.mpr ⟨hbB, ?_⟩
    rw [List.all_eq_true]
    intro a haA
    simp only [Bool.not_eq_true', beq_eq_false_iff_ne, ne_eq]
    exact hnone a haA

/-- Witness for the amended C5 at concrete one-row tables with a shared
key. -/
theorem c5_outer_merge_amended_witness :
    (([(⟨"C", "2015", 7, [("e1a1", "x")]⟩ : DRR.SubRow)].map DRR.key).Nodup) ∧
    (([(⟨"C", "2015", 7, [("e1a2", "y")]⟩ : DRR.SubRow)].map DRR.key).Nodup) ∧
    ((DRR.pdMergeOuter [⟨"C", "2015", 7, [("e1a1", "x")]⟩]
        [⟨"C", "2015", 7, [("e1a2", "y")]⟩]).map DRR.key).Nodup :=
  ⟨by decide, by decide,
   (c5_outer_merge_amended [⟨"C", "2015", 7, [("e1a1", "x")]⟩]
     [⟨"C", "2015", 7, [("e1a2", "y")]⟩] (by decide) (by decide)).1⟩

/-! ## C8: manual withdrawal overrides -/

theorem setCell_country (r : ECT.ERow) (k : String) (v : ECT.CellV) :
    (ECT.setCell r k v).country = r.country := rfl

theorem applyDates_country (dates : List (String × String)) :
    ∀ r : ECT.ERow, (ECT.applyDates r dates).country = r.country := by
  induction dates with
  | nil => intro r; rfl
  | cons kv rest ih =>
    intro r
    show (ECT.applyDates (ECT.setCell r kv.1 (ECT.convVal kv.2)) rest).country =
      r.country
    rw [ih]
    rfl

theorem find?_map_overwrite (cells : List (String × ECT.CellV)) (k : String)
    (v : ECT.CellV) (h : (cells.find? (fun p => p.1 == k)).isSome = true) :
    ((cells.map (fun p => if p.1 == k then (p.1, v) else p)).find?
      (fun p => p.1 == k)).map (fun p => p.2) = some v := by
  induction cells with
  | nil => simp at h
  | cons p cells ih =>
    by_cases hp : (p.1 == k) = true
    · simp only [List.map_cons, if_pos hp, List.find?_cons]
      simp [hp]
    · have hpf : (p.1 == k) = false := by simpa using hp
      simp only [List.find?_cons, hpf] at h
      simp only [List.map_cons, if_neg hp]
      simp only [List.find?_cons, hpf]
      exact ih h

theorem find?_map_overwrite_ne (cells : List (String × ECT.CellV))
    (k k' : String) (v : ECT.CellV) (hk : k' ≠ k) :
    (cells.map (fun p => if p.1 == k then (p.1, v) else p)).find?
      (fun p => p.1 == k') = cells.find? (fun p => p.1 == k') := by
  induction cells with
  | nil => rfl
  | cons p cells ih =>
    by_cases hp : (p.1 == k) = true
    · have hp' : (p.1 == k') = false := by
        have : p.1 = k := by simpa using hp
        simp [this, Ne.symm hk]
      simp only [List.map_cons, if_pos hp, List.find?_cons, hp']
      exact ih
    · simp only [List.map_cons, if_neg hp, List.find?_cons]
      rcases hp' : (p.1 == k') with _ | _
      · exact ih
      · rfl

theorem getCell_setCell_eq (r : ECT.ERow) (k : String) (v : ECT.CellV) :
    ECT.getCell (ECT.setCell r k v) k = some v := by
  simp only [ECT.getCell, ECT.setCell]
  by_cases h : (r.cells.find? (fun p => p.1 == k)).isSome = true
  · rw [if_pos h]
    exact find?_map_overwrite r.cells k v h
  · rw [if_neg h]
    rw [List.find?_append]
    rw [Option.not_isSome_iff_eq_none.mp h]
    simp

theorem getCell_setCell_ne (r : ECT.ERow) (k k' : String) (v : ECT.CellV)
    (hk : k' ≠ k) :
    ECT.getCell (ECT.setCell r k v) k' = ECT.getCell r k' := by
  simp only [ECT.getCell, ECT.setCell]
  by_cases h : (r.cells.find? (fun p => p.1 == k)).isSome = true
  · rw [if_pos h, find?_map_overwrite_ne r.cells k k' v hk]
  · rw [if_neg h, List.find?_append]
    have hone : List.find? (fun p => p.1 == k') [(k, v)] = none := by
      simp [Ne.symm hk]
    rw [hone]
    rcases hfind : r.cells.find? (fun p => p.1 == k') with _ | p <;> simp

theorem applyDates_getCell_not_mem (dates : List (String × String)) :
    ∀ (r : ECT.ERow) (k : String), k ∉ dates.map Prod.fst →
      ECT.getCell (ECT.applyDates r dates) k = ECT.getCell r k := by
  induction dates with
  | nil => intro r k _; rfl
  | cons kv rest ih =>
    intro r k hk
    simp only [List.map_cons, List.mem_cons, not_or] at hk
    show ECT.getCell
      (ECT.applyDates (ECT.setCell r kv.1 (ECT.convVal kv.2)) rest) k =
      ECT.getCell r k
    rw [ih _ k hk.2, getCell_setCell_ne _ _ _ _ hk.1]

theorem applyDates_getCell_mem (dates : List (String × String)) :
    ∀ (r : ECT.ERow) (k : String) (v : String),
      (dates.map Prod.fst).Nodup → (k, v) ∈ dates →
      ECT.getCell (ECT.applyDates r dates) k = some (ECT.convVal v) := by
  induction dates with
  | nil => intro r k v _ hkv; cases hkv
  | cons kv rest ih =>
    intro r k v hnd hkv
    simp only [List.map_cons, List.nodup_cons] at hnd
    rcases List.mem_cons.mp hkv with heq | hmem
    · have h1 : kv.1 = k := by rw [← heq]
      have h2 : kv.2 = v := by rw [← heq]
      show ECT.getCell
        (ECT.applyDates (ECT.setCell r kv.1 (ECT.convVal kv.2)) rest) k =
        some (ECT.convVal v)
      rw [applyDates_getCell_not_mem rest _ k (h1 ▸ hnd.1), h1, h2,
        getCell_setCell_eq]
    · show ECT.getCell
        (ECT.applyDates (ECT.setCell r kv.1 (ECT.convVal kv.2)) rest) k =
        some (ECT.convVal v)
      exact ih _ k v hnd.2 hmem

theorem hasCountry_map_step (df : List ECT.ERow) (c c' : String)
    (dates : List (String × String)) :
    ECT.hasCountry
      (df.map (fun r =>
        if r.country == c then ECT.applyDates r dates else r)) c' =
    ECT.hasCountry df c' := by
  simp only [ECT.hasCountry]
  induction df with
  | nil => rfl
  | cons r df ih =>
    simp only [List.map_cons, List.any_cons, ih]
    congr 1
    by_cases h : (r.country == c) = true
    · simp only [if_pos h, applyDates_country]
    · simp only [if_neg h]

theorem foldl_withdrawalStep_eq
    (table : List (String × List (String × String))) :
    (table.map Prod.fst).Nodup →
    ∀ df : List ECT.ERow,
      table.foldl ECT.withdrawalStep df =
        df.map (ECT.transf table) ++ ECT.appendedRows table df := by
  induction table with
  | nil =>
    intro _ df
    have hmap : df.map (ECT.transf []) = df.map id :=
      List.map_congr_left (fun r _ => rfl)
    simp only [List.foldl_nil, ECT.appendedRows, List.filter_nil,
      List.map_nil, List.append_nil, hmap, List.map_id]
  | cons e table ih =>
    intro hnd df
    simp only [List.map_cons, List.nodup_cons] at hnd
    show table.foldl ECT.withdrawalStep (ECT.withdrawalStep df e) = _
    rw [ih hnd.2 (ECT.withdrawalStep df e)]
    by_cases hc : ECT.hasCountry df e.1 = true
    · rw [ECT.withdrawalStep, if_pos hc]
      have hA : (df.map (fun r =>
          if r.country == e.1 then ECT.applyDates r e.2 else r)).map
          (ECT.transf table) = df.map (ECT.transf (e :: table)) := by
        rw [List.map_map]
        apply List.map_congr_left
        intro r _
        by_cases hr : (r.country == e.1) = true
        · simp only [Function.comp, if_pos hr]
          have hcountry : (ECT.applyDates r e.2).country = r.country :=
            applyDates_country e.2 r
          have hnone : table.find?
              (fun x => (ECT.applyDates r e.2).country == x.1) = none := by
            rw [List.find?_eq_none]
            intro x hx
            rw [hcountry]
            have hre : r.country = e.1 := by simpa using hr
            rw [hre]
            simp only [Bool.not_eq_true, beq_eq_false_iff_ne, ne_eq]
            intro hex
            exact hnd.1 (List.mem_map.mpr ⟨x, hx, hex.symm⟩)
          rw [ECT.transf, ECT.transf, hnone]
          simp only [List.find?_cons, hr]
        · have hrf : (r.country == e.1) = false := by simpa using hr
          simp only [Function.comp, if_neg hr]
          rw [ECT.transf, ECT.transf]
          simp only [List.find?_cons, hrf]
      have hB : ECT.appendedRows table
          (df.map (fun r =>
            if r.country == e.1 then ECT.applyDates r e.2 else r)) =
          ECT.appendedRows (e :: table) df := by
        simp only [ECT.appendedRows]
        have hfe : (e :: table).filter (fun x => !ECT.hasCountry df x.1) =
            table.filter (fun x => !ECT.hasCountry df x.1) := by
          rw [List.filter_cons, if_neg (by simp [hc])]
        rw [hfe]
        congr 1
        apply List.filter_congr
        intro x _
        rw [hasCountry_map_step]
      rw [hA, hB]
    · rw [ECT.withdrawalStep, if_neg hc]
      have hc' : ECT.hasCountry df e.1 = false := by simpa using hc
      have hall : ∀ r ∈ df, (r.country == e.1) = false := by
        intro r hr
        have := List.any_eq_false.mp hc' r hr
        simpa using this
      rw [List.map_append]
      have hnew : ECT.transf table (ECT.newRow e.1 e.2) =
          ECT.newRow e.1 e.2 := by
        rw [ECT.transf]
        have hnone : table.find?
            (fun x => (ECT.newRow e.1 e.2).country == x.1) = none := by
          rw [List.find?_eq_none]
          intro x hx
          show ¬((ECT.newRow e.1 e.2).country == x.1) = true
          simp only [ECT.newRow]
          simp only [Bool.not_eq_true, beq_eq_false_iff_ne, ne_eq]
          intro hex
          exact hnd.1 (List.mem_map.mpr ⟨x, hx, hex.symm⟩)
        rw [hnone]
      have hmap : df.map (ECT.transf table) =
          df.map (ECT.transf (e :: table)) := by
        apply List.map_congr_left
        intro r hr
        rw [ECT.transf, ECT.transf]
        simp only [List.find?_cons, hall r hr]
      have happ : ECT.appendedRows table (df ++ [ECT.newRow e.1 e.2]) =
          ECT.appendedRows table df := by
        simp only [ECT.appendedRows]
        congr 1
        apply List.filter_congr
        intro x hx
        simp only [ECT.hasCountry, List.any_append]
        have : ([ECT.newRow e.1 e.2].any (fun r => r.country == x.1)) = false := by
          simp only [List.any_cons, List.any_nil, Bool.or_false, ECT.newRow]
          simp only [beq_eq_false_iff_ne, ne_eq]
          intro hex
          exact hnd.1 (List.mem_map.mpr ⟨x, hx, hex.symm⟩)
        rw [this, Bool.or_false]
      have hconsApp : ECT.appendedRows (e :: table) df =
          ECT.newRow e.1 e.2 :: ECT.appendedRows table df := by
        simp only [ECT.appendedRows]
        rw [List.filter_cons, if_pos (by simp [hc'])]
        rfl
      rw [hmap, happ, hconsApp]
      simp only [List.map_cons, List.map_nil]
      rw [hnew, List.append_assoc]
      rfl

theorem find?_entry (r : ECT.ERow) :
    ∀ (table : List (String × List (String × String))),
      (table.map Prod.fst).Nodup →
      ∀ e ∈ table, r.country = e.1 →
        table.find? (fun x => r.country == x.1) = some e := by
  intro table
  induction table with
  | nil => intro _ e he; cases he
  | cons e0 table ih =>
    intro hnd e he hre
    simp only [List.map_cons, List.nodup_cons] at hnd
    rcases List.mem_cons.mp he with rfl | hmem
    · have hp : (r.country == e.1) = true := by simp [hre]
      simp only [List.find?_cons, hp]
    · have hne : (r.country == e0.1) = false := by
        simp only [beq_eq_false_iff_ne, ne_eq, hre]
        intro hex
        exact hnd.1 (List.mem_map.mpr ⟨e, hmem, hex⟩)
      simp only [List.find?_cons, hne]
      exact ih hnd.2 e hmem hre

theorem withdrawal_data_no_na :
    ∀ e ∈ ECT.withdrawal_data, ∀ kv ∈ e.2, kv.2 ≠ "N.A." := by decide

theorem withdrawal_data_dates_nodup :
    ∀ e ∈ ECT.withdrawal_data, (e.2.map Prod.fst).Nodup := by decide

/-- C8: for every input dataframe, `update_dataframe_withdrawals` with the
fixed manual table equals the original rows transformed pointwise followed
by the appended rows: rows of countries not in the table are unchanged;
for a row of a listed country exactly the date fields of that country's
record are overwritten with the years of the listed dates (no value is
'N.A.', so all are converted to years) and every other column is
unchanged; and one new row is appended per table country absent from the
dataframe, in table order. -/
theorem c8_update_withdrawals (df : List ECT.ERow) :
    ECT.update_dataframe_withdrawals df =
      df.map (ECT.transf ECT.withdrawal_data) ++
      ECT.appendedRows ECT.withdrawal_data df ∧
    (∀ r : ECT.ERow, (∀ e ∈ ECT.withdrawal_data, r.country ≠ e.1) →
      ECT.transf ECT.withdrawal_data r = r) ∧
    (∀ r : ECT.ERow, ∀ e ∈ ECT.withdrawal_data, r.country = e.1 →
      (ECT.transf ECT.withdrawal_data r).country = r.country ∧
      (∀ kv ∈ e.2,
        ECT.getCell (ECT.transf ECT.withdrawal_data r) kv.1 =
          some (ECT.CellV.num (ECT.isoYear kv.2))) ∧
      (∀ k, k ∉ e.2.map Prod.fst →
        ECT.getCell (ECT.transf ECT.withdrawal_data r) k =
          ECT.getCell r k)) ∧
    (∀ e ∈ ECT.withdrawal_data, ∀ kv ∈ e.2, kv.2 ≠ "N.A.") := by
  have hnd : (ECT.withdrawal_data.map Prod.fst).Nodup := by decide
  refine ⟨foldl_withdrawalStep_eq ECT.withdrawal_data hnd df, ?_, ?_,
    withdrawal_data_no_na⟩
  · intro r h
    rw [ECT.transf, List.find?_eq_none.mpr]
    intro x hx
    simp only [Bool.not_eq_true, beq_eq_false_iff_ne, ne_eq]
    exact h x hx
  · intro r e he hre
    have hfind := find?_entry r ECT.withdrawal_data hnd e he hre
    have htr : ECT.transf ECT.withdrawal_data r = ECT.applyDates r e.2 := by
      rw [ECT.transf, hfind]
    refine ⟨?_, ?_, ?_⟩
    · rw [htr]
      exact applyDates_country e.2 r
    · intro kv hkv
      rw [htr]
      have hkv' : (kv.1, kv.2) ∈ e.2 := hkv
      rw [applyDates_getCell_mem e.2 r kv.1 kv.2
        (withdrawal_data_dates_nodup e he) hkv']
      rw [ECT.convVal, if_pos (withdrawal_data_no_na e he kv hkv)]
    · intro k hk
      rw [htr]
      exact applyDates_getCell_not_mem e.2 r k hk

/-- Witness for C8: the Italy notification date is written as the year
2014 onto an Italy row. -/
theorem c8_update_withdrawals_witness :
    (("Italy",
      [("date_withdrawal_notification", "2014-12-31"),
       ("date_withdrawal_effect", "2016-01-01"),
       ("date_ratification", "1997-12-05")]) ∈ ECT.withdrawal_data) ∧
    ECT.getCell
      (ECT.transf ECT.withdrawal_data
        ⟨"Italy", [("date_sign", ECT.CellV.num 1994)]⟩)
      "date_withdrawal_notification" =
      some (ECT.CellV.num (ECT.isoYear "2014-12-31")) :=
  ⟨by decide,
   ((c8_update_withdrawals []).2.2.1
      ⟨"Italy", [("date_sign", ECT.CellV.num 1994)]⟩
      ("Italy",
       [("date_withdrawal_notification", "2014-12-31"),
        ("date_withdrawal_effect", "2016-01-01"),
        ("date_ratification", "1997-12-05")])
      (by decide) (by decide)).2.1
      ("date_withdrawal_notification", "2014-12-31") (by decide)⟩

/-! ## C10: extract_valid_years -/

theorem wordChar_digit {c : Char} (h : c.isDigit = true) :
    LVC.wordChar c = true := by
  simp [LVC.wordChar, Char.isAlphanum, h]

theorem standaloneCtx_cons (prev : Option Char) (c : Char) (t : List Char)
    (i : Nat) :
    LVC.standaloneCtx prev (c :: t) (i + 1) = LVC.standaloneCtx (some c) t i := by
  have e1 : i + 1 + 4 = i + 4 + 1 := by omega
  simp only [LVC.standaloneCtx, e1, List.length_cons, List.getD_cons_succ,
    List.drop_succ_cons, Nat.add_sub_cancel]
  congr 1
  · congr 1
    · congr 1
      exact decide_eq_decide.mpr (by omega)
    · rw [if_neg (by omega : ¬ (i + 1 = 0))]
      by_cases hi : i = 0
      · subst hi
        rw [if_pos rfl]
        simp [List.getD_cons_zero]
      · obtain ⟨j, rfl⟩ : ∃ j, i = j + 1 := ⟨i - 1, by omega⟩
        rw [if_neg hi]
        simp only [List.getD_cons_succ, Nat.add_sub_cancel]
  · congr 1
    exact decide_eq_decide.mpr (by omega)

theorem windows_shift (prev : Option Char) (c : Char) (t : List Char) :
    ((List.range t.length).filter
      (fun i => LVC.standaloneCtx prev (c :: t) (i + 1))).map
      (fun i => ((c :: t).drop (i + 1)).take 4) =
    LVC.standaloneWindows (some c) t := by
  rw [LVC.standaloneWindows,
    List.filter_congr (fun i _ => standaloneCtx_cons prev c t i)]
  apply List.map_congr_left
  intro i _
  rw [List.drop_succ_cons]

theorem standaloneWindows_cons_of_zero_false (prev : Option Char) (c : Char)
    (t : List Char) (h0 : LVC.standaloneCtx prev (c :: t) 0 = false) :
    LVC.standaloneWindows prev (c :: t) = LVC.standaloneWindows (some c) t := by
  rw [LVC.standaloneWindows, List.length_cons, List.range_succ_eq_map,
    List.filter_cons]
  rw [if_neg (by simp [h0])]
  rw [List.filter_map, List.map_map]
  exact windows_shift prev c t

theorem standaloneWindows_cons_of_zero_true (prev : Option Char) (c : Char)
    (t : List Char) (h0 : LVC.standaloneCtx prev (c :: t) 0 = true) :
    LVC.standaloneWindows prev (c :: t) =
      ((c :: t).take 4) :: LVC.standaloneWindows (some c) t := by
  rw [LVC.standaloneWindows, List.length_cons, List.range_succ_eq_map,
    List.filter_cons]
  rw [if_pos (by simp [h0])]
  rw [List.map_cons, List.drop_zero, List.filter_map, List.map_map]
  exact congrArg (List.cons ((c :: t).take 4)) (windows_shift prev c t)

theorem standaloneCtx_zero_of_digit (c : Char) (t : List Char)
    (hd : c.isDigit = true) :
    LVC.standaloneCtx (some c) t 0 = false := by
  simp [LVC.standaloneCtx, wordChar_digit hd]

theorem standaloneCtx_zero_cond (prev : Option Char) (c1 c2 c3 c4 : Char)
    (rest : List Char) :
    LVC.standaloneCtx prev (c1 :: c2 :: c3 :: c4 :: rest) 0 =
      (prev.all (fun p => !LVC.wordChar p) && c1.isDigit && c2.isDigit &&
        c3.isDigit && c4.isDigit &&
        rest.head?.all (fun d => !LVC.wordChar d)) := by
  have ht : ((c1 :: c2 :: c3 :: c4 :: rest).drop 0).take 4 = [c1, c2, c3, c4] :=
    rfl
  apply Bool.eq_iff_iff.mpr
  constructor
  · intro h
    simp only [LVC.standaloneCtx, Bool.and_eq_true, Bool.or_eq_true,
      decide_eq_true_eq] at h
    obtain ⟨⟨⟨-, h2⟩, h3⟩, h4⟩ := h
    rw [ht] at h2
    simp only [List.all_cons, List.all_nil, Bool.and_eq_true,
      Bool.and_true] at h2
    rw [if_true] at h3
    obtain ⟨hd1, hd2, hd3, hd4⟩ := h2
    simp only [Bool.and_eq_true]
    refine ⟨⟨⟨⟨⟨h3, hd1⟩, hd2⟩, hd3⟩, hd4⟩, ?_⟩
    cases rest with
    | nil => rfl
    | cons d rest' =>
      rcases h4 with h4 | h4
      · exfalso
        simp only [List.length_cons] at h4
        omega
      · exact h4
  · intro h
    simp only [Bool.and_eq_true] at h
    obtain ⟨⟨⟨⟨⟨hprev, hd1⟩, hd2⟩, hd3⟩, hd4⟩, hhead⟩ := h
    simp only [LVC.standaloneCtx, Bool.and_eq_true, Bool.or_eq_true,
      decide_eq_true_eq]
    refine ⟨⟨⟨?_, ?_⟩, ?_⟩, ?_⟩
    · simp only [List.length_cons]
      omega
    · rw [ht]
      simp [List.all_cons, hd1, hd2, hd3, hd4]
    · rw [if_true]
      exact hprev
    · cases rest with
      | nil => left; rfl
      | cons d rest' =>
        right
        exact hhead

theorem standaloneWindows_short (prev : Option Char) (s : List Char)
    (h : s.length < 4) : LVC.standaloneWindows prev s = [] := by
  rw [LVC.standaloneWindows]
  rw [List.filter_eq_nil_iff.mpr, List.map_nil]
  intro i hi
  simp only [LVC.standaloneCtx, Bool.and_eq_true, decide_eq_true_eq]
  rintro ⟨⟨⟨h1, -⟩, -⟩, -⟩
  omega

theorem findFourDigit_eq_windows (prev : Option Char) (s : List Char) :
    LVC.findFourDigit prev s = LVC.standaloneWindows prev s := by
  induction prev, s using LVC.findFourDigit.induct with
  | case1 prev c1 c2 c3 c4 rest hcond ih =>
    simp only [LVC.findFourDigit, if_pos hcond]
    rw [ih]
    have h0 : LVC.standaloneCtx prev (c1 :: c2 :: c3 :: c4 :: rest) 0 = true := by
      rw [standaloneCtx_zero_cond]
      exact hcond
    have hd1 : c1.isDigit = true := by
      have := hcond
      simp only [Bool.and_eq_true] at this
      exact this.1.1.1.1.2
    have hd2 : c2.isDigit = true := by
      have := hcond
      simp only [Bool.and_eq_true] at this
      exact this.1.1.1.2
    have hd3 : c3.isDigit = true := by
      have := hcond
      simp only [Bool.and_eq_true] at this
      exact this.1.1.2
    have hd4 : c4.isDigit = true := by
      have := hcond
      simp only [Bool.and_eq_true] at this
      exact this.1.2
    rw [standaloneWindows_cons_of_zero_true prev c1 _ h0]
    rw [standaloneWindows_cons_of_zero_false (some c1) c2 _
      (standaloneCtx_zero_of_digit c1 _ hd1)]
    rw [standaloneWindows_cons_of_zero_false (some c2) c3 _
      (standaloneCtx_zero_of_digit c2 _ hd2)]
    rw [standaloneWindows_cons_of_zero_false (some c3) c4 _
      (standaloneCtx_zero_of_digit c3 _ hd3)]
    rfl
  | case2 prev c1 c2 c3 c4 rest hcond ih =>
    simp only [LVC.findFourDigit, if_neg hcond]
    rw [ih]
    have h0 : LVC.standaloneCtx prev (c1 :: c2 :: c3 :: c4 :: rest) 0 = false := by
      rw [standaloneCtx_zero_cond]
      simpa using hcond
    exact (standaloneWindows_cons_of_zero_false prev c1 _ h0).symm
  | case3 t prev hshape =>
    rcases t with _ | ⟨a, _ | ⟨b, _ | ⟨c, _ | ⟨d, r⟩⟩⟩⟩
    · rw [standaloneWindows_short prev _ (by simp)]
      rfl
    · rw [standaloneWindows_short prev _ (by simp)]
      rfl
    · rw [standaloneWindows_short prev _ (by simp)]
      rfl
    · rw [standaloneWindows_short prev _ (by simp)]
      rfl
    · exact (hshape a b c d r rfl).elim

/-- C10: `extract_valid_years` returns `None` exactly when the text has no
standalone four-digit number (a boundary-delimited four-digit regex match)
whose value lies in 1800..2025, otherwise the non-empty list of all such
numbers as integers in order of occurrence (`standaloneYearsSpec`); it
never returns an empty list, and as a total function it never raises. -/
theorem c10_extract_valid_years (text : String) :
    LVC.extract_valid_years text =
      (if (LVC.standaloneYearsSpec text).isEmpty then none
       else some (LVC.standaloneYearsSpec text)) ∧
    LVC.extract_valid_years text ≠ some [] := by
  have h : LVC.findFourDigit none text.data =
      LVC.standaloneWindows none text.data :=
    findFourDigit_eq_windows none text.data
  have heq : LVC.extract_valid_years text =
      (if (LVC.standaloneYearsSpec text).isEmpty then none
       else some (LVC.standaloneYearsSpec text)) := by
    rw [LVC.extract_valid_years, LVC.standaloneYearsSpec, h]
  refine ⟨heq, ?_⟩
  rw [heq]
  by_cases hc : (LVC.standaloneYearsSpec text).isEmpty
  · rw [if_pos hc]
    exact fun hx => Option.noConfusion hx
  · rw [if_neg hc]
    intro hx
    have := Option.some.inj hx
    rw [this] at hc
    exact hc rfl

/-- Witness for the amended C1 at the concrete entity "Testland" and its
year-2000 panel row. -/
theorem c1_marpol_panel_amended_witness :
    MARPOL.toDatetimeYear (some "01 January 1999") = some 1999 ∧
    MARPOL.toDatetimeYear (some "01 January 2000") = some 2000 ∧
    ((⟨"Testland", 2000, 1, 0⟩ : MARPOL.PanelRow) ∈
      MARPOL.clean_panel_data (MARPOL.generate_panel_data
        [⟨"Testland", some "01 January 1999", some "01 January 2000"⟩])) ∧
    (((⟨"Testland", 2000, 1, 0⟩ : MARPOL.PanelRow).marpol_sign = 1 ↔
        1999 ≤ (⟨"Testland", 2000, 1, 0⟩ : MARPOL.PanelRow).year) ∧
      (⟨"Testland", 2000, 1, 0⟩ : MARPOL.PanelRow).marpol_effect = 0) :=
  ⟨by decide, by decide, by decide,
   c1_marpol_panel_amended "Testland" "01 January 1999" "01 January 2000"
     (by decide) (by decide) ⟨"Testland", 2000, 1, 0⟩ (by decide)
     (by decide) (by decide)⟩

end Capmf
